import Mathlib

/-!
Verification of the pypopquiz Backend contract (src/pypopquiz/backends/backend.py)
against its natural-language specification.

The development shallowly embeds:
* the atomic-output-writer context manager `Backend.tmp_intermediate_file`
  over an explicit filesystem model,
* the `Backend` data model with its concrete helper methods
  (`get_font_size`, `get_box_height`) and the default bodies of
  `draw_text` / `replace_audio_by_beep`,
* the stream factories and the interval parser, which are only declared or
  only tested under src/ and are therefore modelled from the spec.
-/

/-- A filesystem path, as a list of components (pathlib-style). -/
abbrev FPath : Type := List String

/-- `pathName p` is the final component of `p`, mirroring `pathlib.Path.name`. -/
def pathName (p : FPath) : String :=
  (p.getLast?).getD ""

/-- `hasPre d p` holds when the component list `d` is a prefix of the
component list `p`, i.e. `p` is `d` itself or lies below directory `d`. -/
def hasPre : FPath → FPath → Bool
  | [], _ => true
  | _ :: _, [] => false
  | a :: as, b :: bs => a == b && hasPre as bs

/-- A model filesystem: an association list of files (path, content) and a
list of existing directories. Content is abstracted to a natural number. -/
structure FS where
  files : List (FPath × Nat)
  dirs : List FPath

/-- Lookup of a file in an association list of files. -/
def lookupFiles : List (FPath × Nat) → FPath → Option Nat
  | [], _ => none
  | (q, c) :: rest, p => if q = p then some c else lookupFiles rest p

/-- Read the content stored at path `p`, if a file exists there. -/
def FS.readFile (fs : FS) (p : FPath) : Option Nat :=
  lookupFiles fs.files p

/-- Does a file exist at path `p`? Mirrors `Path.exists()`. -/
def FS.fileExists (fs : FS) (p : FPath) : Bool :=
  (fs.readFile p).isSome

/-- Write content `c` at path `p`, replacing any previous file there. -/
def FS.writeFile (fs : FS) (p : FPath) (c : Nat) : FS :=
  { fs with files := (p, c) :: fs.files.filter (fun e => decide (e.1 ≠ p)) }

/-- Create directory `d`. Mirrors the directory creation performed by
`tempfile.TemporaryDirectory` on entry. -/
def FS.mkdir (fs : FS) (d : FPath) : FS :=
  { fs with dirs := d :: fs.dirs }

/-- Membership of a path in a list of directories. -/
def memPath : List FPath → FPath → Bool
  | [], _ => false
  | a :: rest, d => if a = d then true else memPath rest d

/-- Does directory `d` exist? -/
def FS.dirExists (fs : FS) (d : FPath) : Bool :=
  memPath fs.dirs d

/-- Remove directory `d` together with every file and directory below it.
Mirrors the cleanup performed by `tempfile.TemporaryDirectory` on exit. -/
def FS.removeTree (fs : FS) (d : FPath) : FS :=
  { files := fs.files.filter (fun e => !(hasPre d e.1)),
    dirs := fs.dirs.filter (fun p => !(hasPre d p)) }

/-- Copy the file at `src` to `dst` (content copy, mirrors `shutil.copy`);
if no file exists at `src` the filesystem is unchanged (in the source this
case is unreachable because the call is guarded by an existence check). -/
def FS.copyFile (fs : FS) (src dst : FPath) : FS :=
  match fs.readFile src with
  | some c => fs.writeFile dst c
  | none => fs

/-- The empty filesystem. -/
def FS.empty : FS := { files := [], dirs := [] }

/-- Outcome of running the body of a `with` scope: either it completed
normally or it raised an exception; in both cases it may have changed the
filesystem. -/
inductive RunResult where
  | ok (fs : FS)
  | exc (fs : FS)

/-- The filesystem after the scope has exited, on either exit path. -/
def RunResult.fs : RunResult → FS
  | RunResult.ok f => f
  | RunResult.exc f => f

/-- The temporary path yielded by `tmp_intermediate_file`:
`tmp_out = Path(tmpdirname) / file_name_out.name`. -/
def tmpOut (tmpdir file_name_out : FPath) : FPath :=
  tmpdir ++ [pathName file_name_out]

/-- Exit phase of `tmp_intermediate_file`, translated from the source.
On normal completion of the body, the statements after the `yield` run:
if a file exists at `tmp_out` it is copied (`shutil.copy`) to
`file_name_out`; then `tempfile.TemporaryDirectory.__exit__` removes the
temporary tree. On an exception, `contextlib.contextmanager` re-raises the
exception at the `yield`, so the statements after the `yield` (the guarded
copy) are skipped; the `with tempfile.TemporaryDirectory()` block still
removes the temporary tree while the exception propagates. -/
def exitStep (tmpdir file_name_out : FPath) : RunResult → RunResult
  | RunResult.ok fs2 =>
      let fs3 := if fs2.fileExists (tmpOut tmpdir file_name_out)
        then fs2.copyFile (tmpOut tmpdir file_name_out) file_name_out
        else fs2
      RunResult.ok (fs3.removeTree tmpdir)
  | RunResult.exc fs2 =>
      RunResult.exc (fs2.removeTree tmpdir)

/-- Shallow embedding of `Backend.tmp_intermediate_file(file_name_out)`.
`tmpdir` stands for the fresh directory name chosen by
`tempfile.TemporaryDirectory()`; `body` is the code of the `with` scope,
receiving the yielded temporary path and the filesystem. -/
def tmp_intermediate_file (tmpdir : FPath) (file_name_out : FPath)
    (body : FPath → FS → RunResult) (fs : FS) : RunResult :=
  exitStep tmpdir file_name_out
    (body (tmpOut tmpdir file_name_out) (fs.mkdir tmpdir))

/-- One recorded editing operation of the Backend contract, with its
arguments as in the Python signatures (floats modelled as rationals;
the partner stream of `combine` / `add_audio` is recorded by its declared
capabilities, since its engine-private state is opaque to the contract). -/
inductive Edit where
  | trim (start_s end_s : Int)
  | repeatStream
  | combine (other_video other_audio : Bool) (other_first : Bool) (crossfade_duration : Rat)
  | fade_in_and_out (duration_s video_length_s : Int) (fade_in fade_out : Bool)
  | scale_video
  | draw_text_in_box (video_text : String) (length : Int) (move top : Bool) (delay_in_sec : Option Int)
  | draw_text (video_text : String) (height_fraction : Rat) (interval : Option (Rat × Rat))
  | add_audio (other_video other_audio : Bool)
  | add_spacer (text : String) (duration_s : Rat)
  | add_silence (duration_s : Rat)
  | normalize_audio
  | reverse
  | replace_audio_by_beep (interval : Rat × Rat) (freq_hz : Int)
deriving DecidableEq

/-- The Backend data model: `__init__` stores `has_video`, `has_audio`,
`width`, `height`; `edits` models the engine-private accumulated edit
state that the mutators build up (opaque to the contract). -/
structure Backend where
  has_video : Bool
  has_audio : Bool
  width : Nat
  height : Nat
  edits : List Edit
deriving DecidableEq

/-- Modelled from the spec: the editing operations of the Backend contract
are abstract in src (declared in backend.py with no bodies); per the spec
each mutator accumulates engine-specific edit state in place. The model
appends the operation to the accumulated edit state and touches nothing
else. -/
def applyEdit (b : Backend) (e : Edit) : Backend :=
  { b with edits := b.edits ++ [e] }

/-- `Backend.get_font_size`, translated from the source:
`return self.height // 14`. -/
def get_font_size (b : Backend) : Nat :=
  b.height / 14

/-- `Backend.get_box_height`, translated from the source:
`return self.height // 7`. -/
def get_box_height (b : Backend) : Nat :=
  b.height / 7

/-- The default body of `Backend.draw_text` as shipped in the source: the
method is concrete (not decorated `@abc.abstractmethod`) but its body
consists only of a docstring, so calling it performs no mutation. -/
def default_draw_text (b : Backend) (video_text : String)
    (height_fraction : Rat) (interval : Option (Rat × Rat)) : Backend :=
  b

/-- The default body of `Backend.replace_audio_by_beep` as shipped in the
source: concrete (not `@abc.abstractmethod`) with a docstring-only body,
so calling it performs no mutation. -/
def default_replace_audio_by_beep (b : Backend) (interval : Rat × Rat)
    (freq_hz : Int) : Backend :=
  b

/-- The declared default value of the `freq_hz` parameter of
`Backend.replace_audio_by_beep` in the source signature. -/
def default_beep_freq : Int := 1500

/-- Modelled from the spec: `create_empty_stream(duration, width, height)`
is a class-level factory whose body is only declared in src; per the spec
it returns a new black-video Stream with `has_video`/`has_audio` set for
its media kind and no prior edit history. -/
def create_empty_stream (duration : Int) (width height : Nat) : Backend :=
  { has_video := true, has_audio := false,
    width := width, height := height, edits := [] }

/-- Modelled from the spec: `create_silent_stream(duration, width, height)`
is a class-level factory whose body is only declared in src; per the spec
it returns a new silent-audio Stream with `has_video`/`has_audio` set for
its media kind and no prior edit history. -/
def create_silent_stream (duration : Rat) (width height : Nat) : Backend :=
  { has_video := false, has_audio := true,
    width := width, height := height, edits := [] }

/-- Modelled from the spec: `create_single_image_stream(input_image,
duration, width, height)` is a class-level factory whose body is only
declared in src; per the spec it returns a new still-image-video Stream
with `has_video`/`has_audio` set for its media kind and no prior edit
history. -/
def create_single_image_stream (input_image : FPath) (duration : Int)
    (width height : Nat) : Backend :=
  { has_video := true, has_audio := false,
    width := width, height := height, edits := [] }

/-- Numeric value of a decimal digit character; `none` on a non-digit. -/
def digitVal (c : Char) : Option Nat :=
  if c.isDigit then some (c.toNat - 48) else none

/-- Accumulating decimal reading of a character list; fails on a
non-digit. -/
def digitsToNatAux : List Char → Nat → Option Nat
  | [], acc => some acc
  | c :: rest, acc =>
      match digitVal c with
      | some d => digitsToNatAux rest (acc * 10 + d)
      | none => none

/-- Parse a non-empty all-digit character list as a decimal natural. -/
def digitsToNat (cs : List Char) : Option Nat :=
  match cs with
  | [] => none
  | _ => digitsToNatAux cs 0

/-- Split a character list at colon characters. -/
def splitColon : List Char → List (List Char)
  | [] => [[]]
  | c :: rest =>
      if c = ':' then [] :: splitColon rest
      else
        match splitColon rest with
        | [] => [[c]]
        | g :: gs => (c :: g) :: gs

/-- Modelled from the spec: `parse_timecode` of pypopquiz.io is not under
src (only its tests are); it parses "M:SS" (multi-digit minute allowed)
into total seconds (`minutes * 60 + seconds`), failing on malformed or
non-numeric input. -/
def parse_timecode (s : String) : Option Nat :=
  match splitColon s.data with
  | [m, sec] =>
      match digitsToNat m, digitsToNat sec with
      | some mv, some sv => some (mv * 60 + sv)
      | _, _ => none
  | _ => none

/-- Modelled from the spec: `get_interval_in_s(pair)` of pypopquiz.io is
not under src (only its tests are); it applies `parse_timecode` to both
elements and returns `(start, end)`. -/
def get_interval_in_s (pair : String × String) : Option (Nat × Nat) :=
  match parse_timecode pair.1, parse_timecode pair.2 with
  | some a, some b => some (a, b)
  | _, _ => none

/-- Modelled from the spec: `get_interval_duration(pair)` of pypopquiz.io
is not under src (only its tests are); it returns `end - start` from
`get_interval_in_s` (a negative result is not an error at this layer, so
the result is an integer). -/
def get_interval_duration (pair : String × String) : Option Int :=
  match get_interval_in_s pair with
  | some ab => some ((ab.2 : Int) - (ab.1 : Int))
  | none => none

/-! ## Helper lemmas about the filesystem model -/

lemma hasPre_refl (d : FPath) : hasPre d d = true := by
  induction d with
  | nil => rfl
  | cons a as ih => simp [hasPre, ih]

lemma hasPre_append (d q : FPath) : hasPre d (d ++ q) = true := by
  induction d with
  | nil => rfl
  | cons a as ih => simp [hasPre, ih]

lemma lookupFiles_filter_outside (d p : FPath) (h : hasPre d p = false)
    (l : List (FPath × Nat)) :
    lookupFiles (l.filter (fun e => !(hasPre d e.1))) p = lookupFiles l p := by
  induction l with
  | nil => rfl
  | cons e rest ih =>
    rcases e with ⟨q, c⟩
    by_cases hq : q = p
    · subst hq
      simp [List.filter_cons, h, lookupFiles]
    · by_cases hd : hasPre d q
      · simp [List.filter_cons, hd, lookupFiles, hq, ih]
      · simp [List.filter_cons, hd, lookupFiles, hq, ih]

lemma lookupFiles_filter_inside (d p : FPath) (h : hasPre d p = true)
    (l : List (FPath × Nat)) :
    lookupFiles (l.filter (fun e => !(hasPre d e.1))) p = none := by
  induction l with
  | nil => rfl
  | cons e rest ih =>
    rcases e with ⟨q, c⟩
    by_cases hq : q = p
    · subst hq
      simp [List.filter_cons, h, lookupFiles, ih]
    · by_cases hd : hasPre d q
      · simp [List.filter_cons, hd, lookupFiles, hq, ih]
      · simp [List.filter_cons, hd, lookupFiles, hq, ih]

lemma readFile_removeTree_outside (fs : FS) (d p : FPath)
    (h : hasPre d p = false) :
    (fs.removeTree d).readFile p = fs.readFile p :=
  lookupFiles_filter_outside d p h fs.files

lemma readFile_removeTree_inside (fs : FS) (d p : FPath)
    (h : hasPre d p = true) :
    (fs.removeTree d).readFile p = none :=
  lookupFiles_filter_inside d p h fs.files

lemma memPath_filter_out (d : FPath) (pr : FPath → Bool) (h : pr d = false)
    (l : List FPath) : memPath (l.filter pr) d = false := by
  induction l with
  | nil => rfl
  | cons a rest ih =>
    by_cases ha : a = d
    · subst ha
      simp [List.filter_cons, h, ih]
    · by_cases hp : pr a
      · simp [List.filter_cons, hp, memPath, ha, ih]
      · simp [List.filter_cons, hp, ih]

lemma dirExists_removeTree_self (fs : FS) (d : FPath) :
    (fs.removeTree d).dirExists d = false := by
  have hd : (!(hasPre d d)) = false := by simp [hasPre_refl]
  exact memPath_filter_out d _ hd fs.dirs

lemma readFile_writeFile_self (fs : FS) (p : FPath) (c : Nat) :
    (fs.writeFile p c).readFile p = some c := by
  simp [FS.writeFile, FS.readFile, lookupFiles]

lemma lookupFiles_filter_keep (pr : FPath × Nat → Bool) (q : FPath)
    (h : ∀ c, pr (q, c) = true) (l : List (FPath × Nat)) :
    lookupFiles (l.filter pr) q = lookupFiles l q := by
  induction l with
  | nil => rfl
  | cons e rest ih =>
    rcases e with ⟨r, c2⟩
    by_cases hr : r = q
    · subst hr
      simp [List.filter_cons, h c2, lookupFiles]
    · by_cases hp : pr (r, c2)
      · simp [List.filter_cons, hp, lookupFiles, hr, ih]
      · simp [List.filter_cons, hp, lookupFiles, hr, ih]

lemma readFile_writeFile_other (fs : FS) (p q : FPath) (c : Nat)
    (h : q ≠ p) : (fs.writeFile p c).readFile q = fs.readFile q := by
  have hne : ¬(p = q) := fun hEq => h hEq.symm
  simp only [FS.writeFile, FS.readFile, lookupFiles, if_neg hne]
  exact lookupFiles_filter_keep _ q (fun c2 => by simp [h]) fs.files

lemma readFile_mkdir (fs : FS) (d p : FPath) :
    (fs.mkdir d).readFile p = fs.readFile p := rfl

lemma pathName_concat (l : FPath) (a : String) : pathName (l ++ [a]) = a := by
  simp [pathName, List.getLast?_concat]

lemma tmpOut_ne_tmpdir (tmpdir fp : FPath) : tmpOut tmpdir fp ≠ tmpdir := by
  intro h
  have hlen := congrArg List.length h
  simp [tmpOut] at hlen

/-! ## Claims about the atomic output writer -/

/-- C1: whenever the scope body of `tmp_intermediate_file` raises before
creating any file at the yielded temp path, the scope exit propagates the
exception, the destination `file_name_out` is left absent/unchanged, and
the temporary directory (with everything below it) no longer exists. The
hypotheses say: the fresh temporary directory does not lie above the
destination, the body raised, the body left no file at the temp path, and
the body did not itself touch the destination path. -/
theorem claim_c1_raise_before_temp_file (tmpdir fp : FPath) (fs fs2 : FS)
    (body : FPath → FS → RunResult)
    (hout : hasPre tmpdir fp = false)
    (hrun : body (tmpOut tmpdir fp) (fs.mkdir tmpdir) = RunResult.exc fs2)
    (hnofile : fs2.fileExists (tmpOut tmpdir fp) = false)
    (hpres : fs2.readFile fp = fs.readFile fp) :
    tmp_intermediate_file tmpdir fp body fs = RunResult.exc (fs2.removeTree tmpdir) ∧
    (fs2.removeTree tmpdir).readFile fp = fs.readFile fp ∧
    (fs2.removeTree tmpdir).dirExists tmpdir = false ∧
    (∀ p, hasPre tmpdir p = true → (fs2.removeTree tmpdir).readFile p = none) := by
  refine ⟨?_, ?_, ?_, ?_⟩
  · simp [tmp_intermediate_file, hrun, exitStep]
  · rw [readFile_removeTree_outside _ _ _ hout, hpres]
  · exact dirExists_removeTree_self _ _
  · intro p hp
    exact readFile_removeTree_inside _ _ _ hp

/-- Witness for C1: a body that raises immediately, with destination
`[out]` and temporary directory `[tmp0]`, on the empty filesystem. -/
theorem claim_c1_witness :
    tmp_intermediate_file ["tmp0"] ["out"] (fun _ f => RunResult.exc f) FS.empty
      = RunResult.exc ((FS.mkdir FS.empty ["tmp0"]).removeTree ["tmp0"]) ∧
    ((FS.mkdir FS.empty ["tmp0"]).removeTree ["tmp0"]).readFile ["out"]
      = FS.empty.readFile ["out"] ∧
    ((FS.mkdir FS.empty ["tmp0"]).removeTree ["tmp0"]).dirExists ["tmp0"] = false ∧
    (∀ p, hasPre ["tmp0"] p = true →
      ((FS.mkdir FS.empty ["tmp0"]).removeTree ["tmp0"]).readFile p = none) :=
  claim_c1_raise_before_temp_file ["tmp0"] ["out"] FS.empty
    (FS.mkdir FS.empty ["tmp0"]) (fun _ f => RunResult.exc f)
    (by decide) rfl (by decide) rfl

/-- C2 counterexample: a body that creates the file at the yielded temp
path and then raises. At scope exit the file exists at the temp path
(first conjunct), yet after the scope exits the destination holds no file
(second conjunct): the copy claimed for the exception exit path does not
happen, because `contextlib.contextmanager` re-raises at the `yield` and
the guarded copy after the `yield` is skipped. -/
theorem claim_c2_counterexample :
    ((fun tp f => RunResult.exc (FS.writeFile f tp 7)) (tmpOut ["t"] ["out"])
        (FS.mkdir FS.empty ["t"])).fs.fileExists (tmpOut ["t"] ["out"]) = true ∧
    (tmp_intermediate_file ["t"] ["out"]
        (fun tp f => RunResult.exc (FS.writeFile f tp 7)) FS.empty).fs.readFile ["out"]
      = none := by
  constructor
  · rfl
  · rfl

/-- C2 amended: on every exit path the temporary directory and its
contents are removed; the copy of the temp file to `file_name_out`
happens only when the body completes normally (and then only if a file
exists at the temp path), in which case the destination afterwards holds
exactly the content of the temp file. -/
theorem claim_c2_cleanup_always_copy_on_success (tmpdir fp : FPath)
    (body : FPath → FS → RunResult) (fs : FS)
    (hout : hasPre tmpdir fp = false) :
    (tmp_intermediate_file tmpdir fp body fs).fs.dirExists tmpdir = false ∧
    (∀ p, hasPre tmpdir p = true →
      (tmp_intermediate_file tmpdir fp body fs).fs.readFile p = none) ∧
    (∀ fs2, body (tmpOut tmpdir fp) (fs.mkdir tmpdir) = RunResult.ok fs2 →
      fs2.fileExists (tmpOut tmpdir fp) = true →
      (tmp_intermediate_file tmpdir fp body fs).fs.readFile fp
        = fs2.readFile (tmpOut tmpdir fp)) := by
  cases hb : body (tmpOut tmpdir fp) (fs.mkdir tmpdir) with
  | exc fs2 =>
    refine ⟨?_, ?_, ?_⟩
    · simp only [tmp_intermediate_file, hb, exitStep, RunResult.fs]
      exact dirExists_removeTree_self _ _
    · intro p hp
      simp only [tmp_intermediate_file, hb, exitStep, RunResult.fs]
      exact readFile_removeTree_inside _ _ _ hp
    · intro fs2b hok
      exact absurd hok (by simp)
  | ok fs2 =>
    refine ⟨?_, ?_, ?_⟩
    · simp only [tmp_intermediate_file, hb, exitStep, RunResult.fs]
      exact dirExists_removeTree_self _ _
    · intro p hp
      simp only [tmp_intermediate_file, hb, exitStep, RunResult.fs]
      exact readFile_removeTree_inside _ _ _ hp
    · intro fs2b hok hex
      have hfs : fs2 = fs2b := by
        cases hok
        rfl
      subst hfs
      obtain ⟨c, hc⟩ : ∃ c, fs2.readFile (tmpOut tmpdir fp) = some c := by
        rcases hr : fs2.readFile (tmpOut tmpdir fp) with _ | c
        · rw [FS.fileExists, hr] at hex
          exact absurd hex (by simp)
        · exact ⟨c, rfl⟩
      simp only [tmp_intermediate_file, hb, exitStep, RunResult.fs, hex, if_true]
      rw [readFile_removeTree_outside _ _ _ hout]
      rw [FS.copyFile, hc, readFile_writeFile_self]

/-- Witness for the amended C2: a body that writes content 5 at the temp
path and completes normally; the destination receives that content and
the temporary directory is gone. -/
theorem claim_c2_witness :
    (tmp_intermediate_file ["t2"] ["dest"]
        (fun tp f => RunResult.ok (FS.writeFile f tp 5)) FS.empty).fs.dirExists ["t2"]
      = false ∧
    (∀ p, hasPre ["t2"] p = true →
      (tmp_intermediate_file ["t2"] ["dest"]
          (fun tp f => RunResult.ok (FS.writeFile f tp 5)) FS.empty).fs.readFile p
        = none) ∧
    (∀ fs2, (fun tp f => RunResult.ok (FS.writeFile f tp 5)) (tmpOut ["t2"] ["dest"])
        (FS.mkdir FS.empty ["t2"]) = RunResult.ok fs2 →
      fs2.fileExists (tmpOut ["t2"] ["dest"]) = true →
      (tmp_intermediate_file ["t2"] ["dest"]
          (fun tp f => RunResult.ok (FS.writeFile f tp 5)) FS.empty).fs.readFile ["dest"]
        = fs2.readFile (tmpOut ["t2"] ["dest"])) :=
  claim_c2_cleanup_always_copy_on_success ["t2"] ["dest"]
    (fun tp f => RunResult.ok (FS.writeFile f tp 5)) FS.empty (by decide)

/-- C3: whenever the scope body raises — even if it already created a file
at the yielded temp path — the destination is left untouched after the
scope exits: the exception propagates and no copy to `file_name_out`
takes place. Hypotheses: destination not below the temporary directory,
the body raised, and the body did not itself write the destination. -/
theorem claim_c3_raise_leaves_destination (tmpdir fp : FPath) (fs fs2 : FS)
    (body : FPath → FS → RunResult)
    (hout : hasPre tmpdir fp = false)
    (hrun : body (tmpOut tmpdir fp) (fs.mkdir tmpdir) = RunResult.exc fs2)
    (hpres : fs2.readFile fp = fs.readFile fp) :
    tmp_intermediate_file tmpdir fp body fs = RunResult.exc (fs2.removeTree tmpdir) ∧
    (fs2.removeTree tmpdir).readFile fp = fs.readFile fp := by
  constructor
  · simp [tmp_intermediate_file, hrun, exitStep]
  · rw [readFile_removeTree_outside _ _ _ hout, hpres]

/-- Witness for C3: the body creates a file (content 9) at the temp path
and then raises; the destination still ends up with no file. -/
theorem claim_c3_witness :
    tmp_intermediate_file ["t3"] ["final"]
        (fun tp f => RunResult.exc (FS.writeFile f tp 9)) FS.empty
      = RunResult.exc
          ((FS.writeFile (FS.mkdir FS.empty ["t3"]) (tmpOut ["t3"] ["final"]) 9).removeTree
            ["t3"]) ∧
    ((FS.writeFile (FS.mkdir FS.empty ["t3"]) (tmpOut ["t3"] ["final"]) 9).removeTree
        ["t3"]).readFile ["final"]
      = FS.empty.readFile ["final"] :=
  claim_c3_raise_leaves_destination ["t3"] ["final"] FS.empty
    (FS.writeFile (FS.mkdir FS.empty ["t3"]) (tmpOut ["t3"] ["final"]) 9)
    (fun tp f => RunResult.exc (FS.writeFile f tp 9))
    (by decide) rfl (by decide)

/-- C4: on scope entry `tmp_intermediate_file` creates the (previously
absent, hence fresh) temporary directory and yields to the body exactly
the path `temp_dir / file_name_out.name`: a path lying strictly inside
the new temporary directory, with the same final name component as the
destination. The last conjunct records that the whole computation runs
the body precisely at that path, on the filesystem with the directory
created; the second conjunct records that the directory is private
(contains no files) on entry. -/
theorem claim_c4_entry_yields_temp_path (tmpdir fp : FPath) (fs : FS)
    (body : FPath → FS → RunResult)
    (hfresh : fs.dirExists tmpdir = false)
    (hclean : ∀ p, hasPre tmpdir p = true → fs.readFile p = none) :
    fs.dirExists tmpdir = false ∧
    (fs.mkdir tmpdir).dirExists tmpdir = true ∧
    (∀ p, hasPre tmpdir p = true → (fs.mkdir tmpdir).readFile p = none) ∧
    tmpOut tmpdir fp = tmpdir ++ [pathName fp] ∧
    hasPre tmpdir (tmpOut tmpdir fp) = true ∧
    tmpOut tmpdir fp ≠ tmpdir ∧
    pathName (tmpOut tmpdir fp) = pathName fp ∧
    tmp_intermediate_file tmpdir fp body fs
      = exitStep tmpdir fp (body (tmpOut tmpdir fp) (fs.mkdir tmpdir)) := by
  refine ⟨hfresh, ?_, ?_, rfl, ?_, ?_, ?_, rfl⟩
  · simp [FS.dirExists, FS.mkdir, memPath]
  · intro p hp
    exact hclean p hp
  · exact hasPre_append tmpdir [pathName fp]
  · exact tmpOut_ne_tmpdir tmpdir fp
  · exact pathName_concat tmpdir (pathName fp)

/-- Witness for C4 at a concrete input with a multi-component destination
path, so that the name component is a proper suffix. -/
theorem claim_c4_witness :
    FS.empty.dirExists ["t4"] = false ∧
    (FS.mkdir FS.empty ["t4"]).dirExists ["t4"] = true ∧
    (∀ p, hasPre ["t4"] p = true → (FS.mkdir FS.empty ["t4"]).readFile p = none) ∧
    tmpOut ["t4"] ["videos", "out.avi"] = ["t4"] ++ [pathName ["videos", "out.avi"]] ∧
    hasPre ["t4"] (tmpOut ["t4"] ["videos", "out.avi"]) = true ∧
    tmpOut ["t4"] ["videos", "out.avi"] ≠ ["t4"] ∧
    pathName (tmpOut ["t4"] ["videos", "out.avi"]) = pathName ["videos", "out.avi"] ∧
    tmp_intermediate_file ["t4"] ["videos", "out.avi"] (fun _ f => RunResult.ok f) FS.empty
      = exitStep ["t4"] ["videos", "out.avi"]
          ((fun _ f => RunResult.ok f) (tmpOut ["t4"] ["videos", "out.avi"])
            (FS.mkdir FS.empty ["t4"])) :=
  claim_c4_entry_yields_temp_path ["t4"] ["videos", "out.avi"] FS.empty
    (fun _ f => RunResult.ok f) (by decide) (fun _ _ => rfl)

/-- C10: whenever the scope body completes normally without ever creating
a file at the yielded temp path, the scope exits normally (no error), the
guarded copy is silently skipped, and the destination is untouched.
Hypotheses: destination not below the temporary directory, the body
completed normally, no file at the temp path, and the body did not itself
write the destination. -/
theorem claim_c10_success_without_temp_file (tmpdir fp : FPath) (fs fs2 : FS)
    (body : FPath → FS → RunResult)
    (hout : hasPre tmpdir fp = false)
    (hrun : body (tmpOut tmpdir fp) (fs.mkdir tmpdir) = RunResult.ok fs2)
    (hnofile : fs2.fileExists (tmpOut tmpdir fp) = false)
    (hpres : fs2.readFile fp = fs.readFile fp) :
    tmp_intermediate_file tmpdir fp body fs = RunResult.ok (fs2.removeTree tmpdir) ∧
    (fs2.removeTree tmpdir).readFile fp = fs.readFile fp := by
  constructor
  · simp [tmp_intermediate_file, hrun, exitStep, hnofile]
  · rw [readFile_removeTree_outside _ _ _ hout, hpres]

/-- Witness for C10: the body does nothing, on a filesystem that already
holds content 3 at the destination; the scope exits normally and the
destination still holds content 3. -/
theorem claim_c10_witness :
    tmp_intermediate_file ["t10"] ["res"] (fun _ f => RunResult.ok f)
        (FS.writeFile FS.empty ["res"] 3)
      = RunResult.ok
          ((FS.mkdir (FS.writeFile FS.empty ["res"] 3) ["t10"]).removeTree ["t10"]) ∧
    ((FS.mkdir (FS.writeFile FS.empty ["res"] 3) ["t10"]).removeTree ["t10"]).readFile
        ["res"]
      = (FS.writeFile FS.empty ["res"] 3).readFile ["res"] :=
  claim_c10_success_without_temp_file ["t10"] ["res"]
    (FS.writeFile FS.empty ["res"] 3)
    (FS.mkdir (FS.writeFile FS.empty ["res"] 3) ["t10"])
    (fun _ f => RunResult.ok f)
    (by decide) rfl (by decide) rfl

/-! ## Claims about the Backend data model and the interval parser -/

lemma foldl_applyEdit_fields (es : List Edit) (b : Backend) :
    (es.foldl applyEdit b).has_video = b.has_video ∧
    (es.foldl applyEdit b).has_audio = b.has_audio ∧
    (es.foldl applyEdit b).width = b.width ∧
    (es.foldl applyEdit b).height = b.height := by
  induction es generalizing b with
  | nil => exact ⟨rfl, rfl, rfl, rfl⟩
  | cons e rest ih =>
    rw [List.foldl_cons]
    rcases ih (applyEdit b e) with ⟨h1, h2, h3, h4⟩
    exact ⟨h1, h2, h3, h4⟩

/-- C5: for valid timecode pairs, `get_interval_in_s` returns the two
parses and `get_interval_duration` returns their difference; in
particular the concrete values of the unit tests hold. -/
theorem claim_c5_interval_seconds (a b : String) (sa sb : Nat)
    (ha : parse_timecode a = some sa) (hb : parse_timecode b = some sb) :
    get_interval_in_s (a, b) = some (sa, sb) ∧
    get_interval_duration (a, b) = some ((sb : Int) - (sa : Int)) ∧
    get_interval_in_s ("0:10", "1:11") = some (10, 71) ∧
    get_interval_duration ("2:10", "4:09") = some 119 := by
  refine ⟨?_, ?_, by decide, by decide⟩
  · simp [get_interval_in_s, ha, hb]
  · simp [get_interval_duration, get_interval_in_s, ha, hb]

/-- Witness for C5 at the test pair ("0:10", "1:11"). -/
theorem claim_c5_witness :
    get_interval_in_s ("0:10", "1:11") = some (10, 71) ∧
    get_interval_duration ("0:10", "1:11") = some ((71 : Int) - (10 : Int)) ∧
    get_interval_in_s ("0:10", "1:11") = some (10, 71) ∧
    get_interval_duration ("2:10", "4:09") = some 119 :=
  claim_c5_interval_seconds ("0:10") ("1:11") 10 71 (by decide) (by decide)

/-- C6: `has_video` and `has_audio` are fixed at construction: after any
sequence of contract operations applied to a Backend, both flags equal
their values at creation. -/
theorem claim_c6_capability_flags_invariant (b : Backend) (es : List Edit) :
    (es.foldl applyEdit b).has_video = b.has_video ∧
    (es.foldl applyEdit b).has_audio = b.has_audio := by
  rcases foldl_applyEdit_fields es b with ⟨h1, h2, _, _⟩
  exact ⟨h1, h2⟩

/-- C7: the three stream factories take no Backend instance (they are
class-level), and each returns a fresh Stream whose `has_video` /
`has_audio` flags match its media kind, with the requested frame size and
no prior edit history. -/
theorem claim_c7_factories (duration : Int) (adur : Rat) (width height : Nat)
    (img : FPath) :
    (create_empty_stream duration width height).has_video = true ∧
    (create_empty_stream duration width height).has_audio = false ∧
    (create_empty_stream duration width height).width = width ∧
    (create_empty_stream duration width height).height = height ∧
    (create_empty_stream duration width height).edits = [] ∧
    (create_silent_stream adur width height).has_audio = true ∧
    (create_silent_stream adur width height).has_video = false ∧
    (create_silent_stream adur width height).edits = [] ∧
    (create_single_image_stream img duration width height).has_video = true ∧
    (create_single_image_stream img duration width height).edits = [] :=
  ⟨rfl, rfl, rfl, rfl, rfl, rfl, rfl, rfl, rfl, rfl⟩

/-- C8 counterexample: the shipped default bodies of `draw_text` and
`replace_audio_by_beep` are no-ops. Called on a concrete stream, they
return the stream unchanged and its accumulated edit pipeline stays
empty, so no text is drawn at `height_fraction * height` and no audio is
replaced by a tone — contradicting the claim that the defaults perform
their documented effects. -/
theorem claim_c8_counterexample :
    default_draw_text (create_empty_stream 5 640 480) ("Quiz") (1 / 2) none
      = create_empty_stream 5 640 480 ∧
    (default_draw_text (create_empty_stream 5 640 480) ("Quiz") (1 / 2)
        (some (0, 3))).edits = [] ∧
    default_replace_audio_by_beep (create_empty_stream 5 640 480) (0, 1) 1500
      = create_empty_stream 5 640 480 ∧
    (default_replace_audio_by_beep (create_empty_stream 5 640 480) (0, 1)
        1500).edits = [] :=
  ⟨rfl, rfl, rfl, rfl⟩

/-- C8 amended: `draw_text` and `replace_audio_by_beep` are shipped as
concrete (non-`@abc.abstractmethod`) methods of Backend, but their
default bodies are docstring-only no-ops leaving the stream unchanged;
the documented drawing/beep effects must come from concrete-backend
overrides. The declared default of the `freq_hz` parameter is 1500. -/
theorem claim_c8_defaults_are_noops (b : Backend) (t : String) (hf : Rat)
    (iv : Option (Rat × Rat)) (iv2 : Rat × Rat) (freq : Int) :
    default_draw_text b t hf iv = b ∧
    default_replace_audio_by_beep b iv2 freq = b ∧
    default_beep_freq = 1500 :=
  ⟨rfl, rfl, rfl⟩

/-- C9: `get_font_size` is `height // 14` and `get_box_height` is
`height // 7`, unaffected by any edit history and depending on no field
other than `height`. -/
theorem claim_c9_size_helpers (b : Backend) (es : List Edit) :
    get_font_size (es.foldl applyEdit b) = b.height / 14 ∧
    get_box_height (es.foldl applyEdit b) = b.height / 7 ∧
    (∀ b2 : Backend, b2.height = b.height →
      get_font_size b2 = get_font_size b ∧
      get_box_height b2 = get_box_height b) := by
  rcases foldl_applyEdit_fields es b with ⟨_, _, _, h4⟩
  refine ⟨?_, ?_, ?_⟩
  · simp [get_font_size, h4]
  · simp [get_box_height, h4]
  · intro b2 hh
    constructor
    · simp [get_font_size, hh]
    · simp [get_box_height, hh]

/-- Witness for C9 on a concrete 640x480 stream after a
`scale_video` edit. -/
theorem claim_c9_witness :
    get_font_size ([Edit.scale_video].foldl applyEdit (create_empty_stream 5 640 480))
      = (create_empty_stream 5 640 480).height / 14 ∧
    get_box_height ([Edit.scale_video].foldl applyEdit (create_empty_stream 5 640 480))
      = (create_empty_stream 5 640 480).height / 7 ∧
    (∀ b2 : Backend, b2.height = (create_empty_stream 5 640 480).height →
      get_font_size b2 = get_font_size (create_empty_stream 5 640 480) ∧
      get_box_height b2 = get_box_height (create_empty_stream 5 640 480)) :=
  claim_c9_size_helpers (create_empty_stream 5 640 480) [Edit.scale_video]
